import Mathlib

/-!
Verification development for the glam_data_processing pipeline.

Each definition below is a shallow embedding of a function of the Python
source (glam_data_processing/stats.py, glam_data_processing/__init__.py,
glam_data_processing/legacy.py).  External libraries (rasterio, gdal,
boto3, hashlib, the MySQL server) are modelled by explicit state values
and parameters; machine floats never decide any property proved here, so
numeric cell contents are carried as integers.
-/

namespace Glam

/-! ### stats.py: getWindows -/

/-- rasterio window `Window(col_off, row_off, width, height)` as built by
`getWindows` in stats.py: `hstart`/`vstart` are the column/row offsets,
`hwin`/`vwin` the window width/height. -/
structure Window where
  hstart : Nat
  vstart : Nat
  hwin : Nat
  vwin : Nat
deriving DecidableEq, Repr

/-- Python `range(0, n, step)` for `step > 0`: the list
`[0, step, 2*step, ...]` of all multiples of `step` below `n`. -/
def rangeStep (n step : Nat) : List Nat :=
  (List.range ((n + step - 1) / step)).map (fun k => k * step)

/-- stats.py `getWindows(width, height, blocksize)`:
for `hstart in range(0, width, blocksize)` and
`vstart in range(0, height, blocksize)` emit a window of side `blocksize`,
trimmed to `width % blocksize` (resp. `height % blocksize`) when
`hstart + blocksize > width` (resp. `vstart + blocksize > height`). -/
def getWindows (width height blocksize : Nat) : List Window :=
  (rangeStep width blocksize).flatMap (fun hstart =>
    (rangeStep height blocksize).map (fun vstart =>
      let hwin := if width < hstart + blocksize then width % blocksize else blocksize
      let vwin := if height < vstart + blocksize then height % blocksize else blocksize
      Window.mk hstart vstart hwin vwin))

/-- Pixel `(x, y)` lies inside window `w` (column `x`, row `y`). -/
def Window.contains (w : Window) (x y : Nat) : Prop :=
  w.hstart ≤ x ∧ x < w.hstart + w.hwin ∧ w.vstart ≤ y ∧ y < w.vstart + w.vwin

instance (w : Window) (x y : Nat) : Decidable (w.contains x y) := by
  unfold Window.contains; infer_instance

/-! ### stats.py: zonalStats

The per-region statistics record produced by `_mp_worker_ZS` (its numeric
fields are irrelevant to the claims below and carried as integers). -/
structure ZStat where
  value : Int
  arable_pixels : Int
  percent_arable : Int
deriving DecidableEq, Repr

/-- stats.py `zonalStats`.  The body computes the block size from the
product metadata, binds the window list to the local name `window`
(`window = getWindows(hnum, vnum, blocksize)`), and then builds
`parallel_args` by iterating `for w in windows`.  No name `windows` is
bound anywhere in the function or module scope (`getWindows` binds its
own local only), so CPython raises `NameError` there on every call,
before any worker is dispatched.  The embedding returns the
corresponding error value on every input. -/
def zonalStats (product_tiled : Bool) (blockxsize width height : Nat)
    (n_cores block_scale_factor : Nat) (default_block_size : Nat := 256) :
    Except String (List (Int × ZStat)) :=
  let blocksize := if product_tiled then blockxsize * block_scale_factor
                   else default_block_size * block_scale_factor
  let window := getWindows width height blocksize
  -- parallel_args = [(w, ...) for w in windows]  -- name `windows` is unbound
  Except.error "NameError: name windows is not defined"

/-! ### __init__.py: product_status flags (Image.setStatus, ToDoList.refresh) -/

/-- One row of the `product_status` catalog table (flag columns only). -/
structure StatusRow where
  downloaded : Bool
  processed : Bool
  statGen : Bool
  completed : Bool
deriving DecidableEq, Repr

/-- `Image.setStatus(stage, status)`: executes
`UPDATE product_status SET {stage} = {status} WHERE product = ... AND date = ...`
after asserting `stage in ['downloaded','processed','statGen']`.
Only the named flag column is written. -/
def setStatus (stage : String) (status : Bool) (r : StatusRow) : StatusRow :=
  if stage = "downloaded" then { r with downloaded := status }
  else if stage = "processed" then { r with processed := status }
  else if stage = "statGen" then { r with statGen := status }
  else r

/-- The bulk statement run at the start of `ToDoList.refresh`:
`UPDATE product_status SET completed = 1 WHERE processed = 1 AND statGen = 1;`
applied to one row. -/
def refreshCompleted (r : StatusRow) : StatusRow :=
  if r.processed && r.statGen then { r with completed := true } else r

/-! ### __init__.py: CHIRPS upstream URL dekad (checkChirps, downloadChirps) -/

/-- The dekad integer placed in the CHIRPS upstream URL.  Both
`Downloader.isAvailable.checkChirps` and
`Downloader.pullFromSource.downloadChirps` (and their chirps-prelim
twins) compute `cDay = str(int(np.ceil(int(cDate.strftime("%d"))/10)))`;
for day-of-month `1..31` the float ceiling equals the integer ceiling
division `(day + 9) / 10`. -/
def chirpsUrlDekad (day : Nat) : Nat := (day + 9) / 10

/-! ### __init__.py: uploadStats retry loop (Image.uploadStats) -/

/-- Number of calls of `Image.uploadStats` made when the body raises
`db.exc.OperationalError` on `failures` consecutive calls and then
succeeds.  Mirrors the source: each frame sets a local `retries = 0`,
and in the `except` handler recurses when `retries <= 3` (the counter is
never incremented, so the guard is evaluated with `retries = 0` in every
frame) and otherwise gives up after the current attempt. -/
def uploadStatsAttempts : Nat → Nat
  | 0 => 1
  | failures + 1 =>
      let retries := 0
      if retries ≤ 3 then 1 + uploadStatsAttempts failures
      else 1

/-! ### __init__.py: stats table materialization
(Image.uploadStats.append_to_stats_table and
ModisImage.uploadStats.append_to_stats_table)

Cell values are floats in the source; nothing proved here depends on
their arithmetic, so they are carried as integers. -/

/-- One row of the pandas dataframe produced by `zonal_stats`:
columns `admin`, `value`, `pct`, `arable`. -/
structure DfRow where
  admin : Int
  value : Int
  pct : Int
  arable : Int
deriving DecidableEq, Repr

/-- One row of a physical `stats_{N}` table: `admin`, `arable`, and the
per-doy cells as an association list from column name to value (a column
absent from the list is NULL for that row). -/
structure TableRow where
  admin : Int
  arable : Int
  cells : List (String × Int)
deriving DecidableEq, Repr

/-- A physical `stats_{N}` table: its column list and rows. -/
structure StatsTable where
  cols : List String
  rows : List TableRow
deriving DecidableEq, Repr

/-- SQL `UPDATE t SET col = v WHERE admin = a` applied to one row's
cells: overwrite the cell if present, otherwise create it. -/
def setCell (col : String) (v : Int) : List (String × Int) → List (String × Int)
  | [] => [(col, v)]
  | (c, w) :: rest => if c = col then (col, v) :: rest else (c, w) :: setCell col v rest

/-- Reading one cell of a row (SQL `SELECT col ... WHERE admin = a`):
`none` is a NULL / absent cell. -/
def getCell (col : String) : List (String × Int) → Option Int
  | [] => none
  | (c, w) :: rest => if c = col then some w else getCell col rest

/-- `ALTER TABLE ... ADD col` guarded by the column-existence probe:
add the column name if it is absent (existing rows keep a NULL cell). -/
def ensureColumn (col : String) (t : StatsTable) : StatsTable :=
  if col ∈ t.cols then t else { t with cols := t.cols ++ [col] }

/-- `UPDATE {table} SET col = v WHERE admin = a` over all rows. -/
def updateColumn (a : Int) (col : String) (v : Int) (rows : List TableRow) : List TableRow :=
  rows.map (fun r => if r.admin = a then { r with cells := setCell col v r.cells } else r)

/-- The body of the `for index, row in df.iterrows()` loop of
`Image.uploadStats.append_to_stats_table` (ancillary products): the two
UPDATE statements for one dataframe row.  No INSERT is issued when an
UPDATE matches zero rows. -/
def appendRowImage (valCol pctCol : String) (t : StatsTable) (row : DfRow) : StatsTable :=
  { t with rows :=
      updateColumn row.admin pctCol row.pct (updateColumn row.admin valCol row.value t.rows) }

/-- `Image.uploadStats.append_to_stats_table` (ancillary products):
ensure the two doy columns exist, then run the two UPDATE statements for
each dataframe row. -/
def appendToStatsTableImage (doy : String) (df : List DfRow) (t : StatsTable) : StatsTable :=
  df.foldl (appendRowImage ("val." ++ doy) ("pct." ++ doy))
    (ensureColumn ("pct." ++ doy) (ensureColumn ("val." ++ doy) t))

/-- The loop body of `ModisImage.uploadStats.append_to_stats_table` (NDVI
products): as the ancillary version, but when the first UPDATE matched
zero rows (`uRows.rowcount == 0`), INSERT a new row with `admin`,
`arable` and the two values. -/
def appendRowModis (valCol pctCol : String) (t : StatsTable) (row : DfRow) : StatsTable :=
  if t.rows.any (fun r => r.admin = row.admin) then
    { t with rows :=
        updateColumn row.admin pctCol row.pct (updateColumn row.admin valCol row.value t.rows) }
  else
    { t with rows :=
        updateColumn row.admin pctCol row.pct (updateColumn row.admin valCol row.value t.rows) ++
          [TableRow.mk row.admin row.arable [(valCol, row.value), (pctCol, row.pct)]] }

/-- `ModisImage.uploadStats.append_to_stats_table` (NDVI products). -/
def appendToStatsTableModis (doy : String) (df : List DfRow) (t : StatsTable) : StatsTable :=
  df.foldl (appendRowModis ("val." ++ doy) ("pct." ++ doy))
    (ensureColumn ("pct." ++ doy) (ensureColumn ("val." ++ doy) t))

/-- `create_stats_table` (both classes): create the table with columns
`admin, arable, val.{doy}, pct.{doy}` and one row per dataframe row. -/
def createStatsTable (doy : String) (df : List DfRow) : StatsTable :=
  let valCol := "val." ++ doy
  let pctCol := "pct." ++ doy
  StatsTable.mk ["admin", "arable", valCol, pctCol]
    (df.map (fun row => TableRow.mk row.admin row.arable
      [(valCol, row.value), (pctCol, row.pct)]))

/-! ### legacy.py: matchup policy and MissingStatistics.getMissingStats -/

def admins_gaul : List String := ["gaul1"]

def admins_brazil : List String :=
  ["BR_Mesoregion", "BR_Microregion", "BR_Municipality", "BR_State"]

def admins_mali : List String := ["Mali", "ICPAC"]

def admins : List String := admins_gaul ++ admins_brazil ++ admins_mali

def crops_cropmonitor : List String :=
  ["maize", "rice", "soybean", "springwheat", "winterwheat", "cropland"]

def crops_brazil : List String :=
  ["2S-DFZSafraZ2013_2014", "2S-GOZSafraZ2013_2014", "2S-MAZSafraZ2013_2014",
   "2S-MGZSafraZ2013_2014", "2S-MSZSafraZ2013_2014", "2S-MTZSafraZ2013_2014",
   "2S-PIZSafraZ2013_2014", "2S-PRZSafraZ2012_2013", "2S-SPZSafraZ2013_2014",
   "2S-TOZSafraZ2013_2014", "CV-DFZSafraZ2017_2018", "CV-GOZSafraZ2014_2015",
   "CV-MATOPIBAZSafraZ2013_2014", "CV-MGZSafraZ2013_2014", "CV-MSZSafraZ2014_2015",
   "CV-MTZSafraZ2014_2015", "CV-PRZSafraZ2013_2014", "CV-ROZSafraZ2013_2014",
   "CV-RSZSafraZ2011_2012", "CV-SCZSafraZ2013_2014", "CV-SPZSafraZ2014_2015"]

def crops_mali : List String := ["Mali", "ICPAC", "JRC_MARS"]

def crops_chile : List String := ["CHILE"]

def crops : List String :=
  crops_cropmonitor ++ crops_brazil ++ crops_mali ++ crops_chile ++ ["nomask"]

/-- legacy.py `admin_crops_matchup`: the static allow-list of crops per
admin region raster. -/
def adminCropsMatchup (admin : String) : List String :=
  if admin ∈ admins_gaul then crops_cropmonitor ++ crops_chile ++ ["nomask"]
  else if admin ∈ admins_brazil then
    crops_brazil ++ ["maize", "rice", "soybean", "winterwheat", "cropland", "nomask"]
  else if admin = "Mali" then ["Mali", "maize", "rice", "cropland", "nomask"]
  else if admin = "ICPAC" then
    ["ICPAC", "JRC_MARS", "maize", "rice", "soybean", "winterwheat", "cropland", "nomask"]
  else []

/-- Physical schema facts about the stats table of one (crop, admin) pair
for a fixed acquisition: whether the per-tuple table exists, and whether
it has the `val.{doy}` resp. `pct.{doy}` column. -/
structure TableState where
  tableExists : Bool
  hasValCol : Bool
  hasPctCol : Bool
deriving DecidableEq, Repr

/-- legacy.py `MissingStatistics.getMissingStats` for one acquisition:
loop over the nested `getStatsTables()` dictionary (crops outer, admins
inner; `getStatsTables` already keeps only admins with
`crop in admin_crops_matchup[admin]`), skip pairs not admitted by the
matchup policy, and report `(admin, crop)` when the table does not exist
or `SELECT val.{doy} FROM {table}` raises (the column is absent).  The
`pct.{doy}` column is never probed. -/
def getMissingStats (tbl : String → String → TableState) : List (String × String) :=
  crops.flatMap (fun crop =>
    (admins.filter (fun admin => crop ∈ adminCropsMatchup admin)).filterMap (fun admin =>
      if crop ∉ adminCropsMatchup admin then none
      else if ¬ (tbl crop admin).tableExists then some (admin, crop)
      else if ¬ (tbl crop admin).hasValCol then some (admin, crop)
      else none))

/-! ### __init__.py: download checksum branches
(Downloader.pullFromSource.{downloadMerra2, downloadChirps,
downloadChirpsPrelim, downloadSwi})

The local filesystem is a list of file names; each model starts from an
empty temp directory and returns the tuple of result paths together with
the files left on disk.  Network behaviour is parameterized: `urlOk`
tells whether the fetch succeeded, `observed`/`expected` are the byte
sizes compared by the checksum. -/

/-- `downloadChirps(date, out_dir)` up to its checksum decision; the
steps after a passing checksum (gunzip, nodata, reprojection,
cloud-optimization) succeed and leave exactly the final file. -/
def downloadChirpsModel (date : String) (urlOk : Bool) (observed expected : Nat) :
    List String × List String :=
  let file_unzipped := "chirps." ++ date ++ ".tif"
  let file_zipped := file_unzipped ++ ".gz"
  let disk := [file_zipped]
  if ¬ urlOk then ([], disk.erase file_zipped)
  else if observed ≠ expected then ([], disk.erase file_zipped)
  else ([file_unzipped], [file_unzipped])

/-- `downloadChirpsPrelim(date, out_dir)` up to its checksum decision. -/
def downloadChirpsPrelimModel (date : String) (urlOk : Bool) (observed expected : Nat) :
    List String × List String :=
  let file_out := "chirps-prelim." ++ date ++ ".tif"
  let tf := "chirps-prelim." ++ date ++ ".UNMASKED.tif"
  let disk := [tf]
  if ¬ urlOk then ([], disk.erase tf)
  else if observed ≠ expected then ([], disk.erase tf)
  else ([file_out], [file_out])

/-- `downloadSwi(date, out_dir)` up to its checksum decision. -/
def downloadSwiModel (date : String) (observed expected : Nat) :
    List String × List String :=
  let out := "swi." ++ date ++ ".tif"
  let file_nc := "swi." ++ date ++ ".nc"
  let disk := [file_nc]
  if observed ≠ expected then ([], disk.erase file_nc)
  else ([out], [out])

/-- `downloadMerra2(date, out_dir)`: loop over the five day-URLs; for
each, write the NetCDF `merra-2.{urlDate}.NETCDF.TEMP.nc`, compare sizes,
and on mismatch `return ()` — the source issues no `os.remove` in that
branch, so the partial NetCDF (and the subdataset tiffs of the previous
days) stay on disk.  On a passing checksum, extract the three subdataset
tiffs and delete the NetCDF.  `sizes` gives `(observed, expected)` per
day; the mosaic of the happy path leaves the three mosaic files. -/
def downloadMerra2Loop (date : String) : List (String × Nat × Nat) → List String →
    List String × List String
  | [], disk =>
      let outs := ["merra-2." ++ date ++ ".min.tif", "merra-2." ++ date ++ ".mean.tif",
                   "merra-2." ++ date ++ ".max.tif"]
      (outs, disk ++ outs)
  | (urlDate, observed, expected) :: rest, disk =>
      let outNc4 := "merra-2." ++ urlDate ++ ".NETCDF.TEMP.nc"
      let disk := disk ++ [outNc4]
      if observed ≠ expected then ([], disk)
      else
        let subs := ["M2_MIN." ++ urlDate ++ ".TEMP.tif", "M2_MAX." ++ urlDate ++ ".TEMP.tif",
                     "M2_MEAN." ++ urlDate ++ ".TEMP.tif"]
        downloadMerra2Loop date rest ((disk.erase outNc4) ++ subs)

/-- `downloadMerra2(date, out_dir)` from an empty temp directory. -/
def downloadMerra2Model (date : String) (sizes : List (String × Nat × Nat)) :
    List String × List String :=
  downloadMerra2Loop date sizes []

/-! ### __init__.py: purge -/

/-- The hard-coded SHA-256 digest
`b'\x7f\\\x04u\xa7\xbf\xa4R\xc7\xc9\xd7{\xbaw\x7f\x80;\x00~\x9d#\xa2\x81M:\xc1\xe2B?\xb9F{'`
compared against `hashlib.sha256(auth_key.encode('ASCII')).digest()`. -/
def authorizedHash : List Nat :=
  [0x7f, 0x5c, 0x04, 0x75, 0xa7, 0xbf, 0xa4, 0x52, 0xc7, 0xc9, 0xd7, 0x7b,
   0xba, 0x77, 0x7f, 0x80, 0x3b, 0x00, 0x7e, 0x9d, 0x23, 0xa2, 0x81, 0x4d,
   0x3a, 0xc1, 0xe2, 0x42, 0x3f, 0xb9, 0x46, 0x7b]

/-- The mutable state touched by `purge`: per-table stats columns, the
`product_status` and `datasets` catalog rows, the object-store keys, and
the local files pulled to disk. -/
structure GlamState where
  statsColumns : List (String × String)
  productStatusRows : List (String × String)
  datasetRows : List (String × String)
  s3Keys : List String
  localFiles : List String
deriving DecidableEq, Repr

/-- `purge(product, date, auth_key)`.  `auth_hash` stands for the digest
`hashlib.sha256(auth_key.encode('ASCII')).digest()` computed by the
external hashlib library; `fileOnS3` tells whether `pullFromS3` finds
the raster.  The digest comparison is the first statement of the
function: on mismatch it logs and returns `None` before any engine,
downloader or deletion is created. -/
def purge (product date : String) (auth_hash : List Nat) (fileOnS3 : Bool)
    (statsNames : List String) (doy : String) (st : GlamState) :
    Option Bool × GlamState :=
  if auth_hash ≠ authorizedHash then (none, st)
  else if ¬ fileOnS3 then (none, st)
  else
    let localFile := product ++ "." ++ date ++ ".tif"
    let st := { st with localFiles := st.localFiles ++ [localFile] }
    let colnames := ["val." ++ doy, "pct." ++ doy]
    let st := { st with statsColumns :=
      st.statsColumns.filter (fun tc => ¬ (tc.1 ∈ statsNames ∧ tc.2 ∈ colnames)) }
    let st := { st with productStatusRows :=
      st.productStatusRows.filter (fun pd => ¬ (pd.1 = product ∧ pd.2 = date)) }
    let st := { st with datasetRows :=
      st.datasetRows.filter (fun pd => ¬ (pd.1 = product ∧ pd.2 = date)) }
    let st := { st with s3Keys := st.s3Keys.erase ("rasters/" ++ localFile) }
    let st := { st with localFiles := st.localFiles.erase localFile }
    (some true, st)

/-! ### __init__.py: ToDoList.refresh candidate-date generation

Civil dates as (year, month, day) triples with the Gregorian month
lengths; `datetime.timedelta` day addition is the iterated civil
successor. -/

structure Date where
  year : Nat
  month : Nat
  day : Nat
deriving DecidableEq, Repr

/-- Gregorian leap-year rule (as implemented by Python `datetime`). -/
def isLeap (y : Nat) : Bool := y % 4 = 0 && (y % 100 ≠ 0 || y % 400 = 0)

def daysInMonth (y m : Nat) : Nat :=
  if m = 2 then (if isLeap y then 29 else 28)
  else if m = 4 ∨ m = 6 ∨ m = 9 ∨ m = 11 then 30
  else 31

/-- A valid civil date. -/
def Valid (d : Date) : Prop :=
  1 ≤ d.month ∧ d.month ≤ 12 ∧ 1 ≤ d.day ∧ d.day ≤ daysInMonth d.year d.month

instance (d : Date) : Decidable (Valid d) := by
  unfold Valid; infer_instance

/-- The next civil day. -/
def succDay (d : Date) : Date :=
  if d.day < daysInMonth d.year d.month then { d with day := d.day + 1 }
  else if d.month < 12 then Date.mk d.year (d.month + 1) 1
  else Date.mk (d.year + 1) 1 1

/-- `date + timedelta(days = n)`. -/
def addDays : Nat → Date → Date
  | 0, d => d
  | n + 1, d => succDay (addDays n d)

/-- Strict lexicographic order on civil dates (the order of Python
`datetime.date` on valid dates). -/
def dateLt (a b : Date) : Prop :=
  a.year < b.year ∨ (a.year = b.year ∧
    (a.month < b.month ∨ (a.month = b.month ∧ a.day < b.day)))

instance (a b : Date) : Decidable (dateLt a b) := by
  unfold dateLt; infer_instance

/-- Day of year (`strftime("%j")`): days of the preceding months plus
the day of month. -/
def daysBeforeMonth (y : Nat) : Nat → Nat
  | 0 => 0
  | 1 => 0
  | m + 1 => daysBeforeMonth y m + daysInMonth y m

def doy (d : Date) : Nat := daysBeforeMonth d.year d.month + d.day

/-- The loop body of `ToDoList.refresh.getChronoChirps` (and its
chirps-prelim twin): if the day of month exceeds 12, add 15 days (pushing
into the next month) and slam the day back to 01 of that month; otherwise
add 10 days. -/
def chirpsStep (latest : Date) : Date :=
  if 12 < latest.day then
    let pushed := addDays 15 latest
    Date.mk pushed.year pushed.month 1
  else addDays 10 latest

/-- The loop body of `ToDoList.refresh.getChronoMod09q1` /
`getChronoMyd09q1` / `getChronoMod13q1` / `getChronoMyd13q1`: add `step`
days (8 or 16); if the year changed, `replace(day = resetDay)` (1 for the
start-of-year cadences, 9 for the MYD13Q1 offset cadence). -/
def modisStep (step resetDay : Nat) (latest : Date) : Date :=
  if (addDays step latest).year ≠ latest.year then { addDays step latest with day := resetDay }
  else addDays step latest

/-- The `while latest < today` generation loop shared by all the
`getChrono*` helpers: step from the latest catalog date, appending each
new date, until the date reaches `today`.  The loop terminates because
every step strictly increases the date; `fuel` bounds the number of
iterations modelled. -/
def getChrono (step : Date → Date) (today : Date) : Nat → Date → List Date
  | 0, _ => []
  | fuel + 1, latest =>
      if dateLt latest today then
        let nxt := step latest
        nxt :: getChrono step today fuel nxt
      else []

/-- Cadence-legal CHIRPS dekad date: day of month 1, 11 or 21. -/
def chirpsLegal (d : Date) : Prop :=
  Valid d ∧ (d.day = 1 ∨ d.day = 11 ∨ d.day = 21)

/-- Cadence-legal date for the 8-day NDVI products (MOD09Q1, MYD09Q1):
day of year congruent to 1 modulo 8. -/
def legal8 (d : Date) : Prop := Valid d ∧ doy d % 8 = 1

/-- Cadence-legal date for the anchored 16-day NDVI product (MOD13Q1):
day of year congruent to 1 modulo 16. -/
def legal16 (d : Date) : Prop := Valid d ∧ doy d % 16 = 1

/-- Cadence-legal date for the offset 16-day NDVI product (MYD13Q1):
day of year congruent to 9 modulo 16. -/
def legal16off (d : Date) : Prop := Valid d ∧ doy d % 16 = 9

instance (d : Date) : Decidable (chirpsLegal d) := by unfold chirpsLegal; infer_instance
instance (d : Date) : Decidable (legal8 d) := by unfold legal8; infer_instance
instance (d : Date) : Decidable (legal16 d) := by unfold legal16; infer_instance
instance (d : Date) : Decidable (legal16off d) := by unfold legal16off; infer_instance

/-! ## Helper lemmas: civil-date arithmetic -/

theorem daysInMonth_bounds (y m : Nat) : 28 ≤ daysInMonth y m ∧ daysInMonth y m ≤ 31 := by
  unfold daysInMonth; split_ifs <;> omega

theorem valid_mk (y m day : Nat) (h1 : 1 ≤ m) (h2 : m ≤ 12) (h3 : 1 ≤ day)
    (h4 : day ≤ daysInMonth y m) : Valid (Date.mk y m day) :=
  ⟨h1, h2, h3, h4⟩

theorem valid_succDay {d : Date} (h : Valid d) : Valid (succDay d) := by
  obtain ⟨h1, h2, h3, h4⟩ := h
  have hb1 := daysInMonth_bounds d.year (d.month + 1)
  have hb2 := daysInMonth_bounds (d.year + 1) 1
  unfold succDay
  split_ifs with hd hm
  · exact valid_mk _ _ _ h1 h2 (by omega) (by omega)
  · exact valid_mk _ _ _ (by omega) (by omega) (by omega) (by omega)
  · exact valid_mk _ _ _ (by omega) (by omega) (by omega) (by omega)

theorem valid_addDays {d : Date} (n : Nat) (h : Valid d) : Valid (addDays n d) := by
  induction n with
  | zero => exact h
  | succ n ih => exact valid_succDay ih

theorem succDay_year_mono (d : Date) : d.year ≤ (succDay d).year := by
  unfold succDay; split_ifs <;> simp <;> omega

theorem addDays_year_mono (n : Nat) (d : Date) : d.year ≤ (addDays n d).year := by
  induction n with
  | zero => exact Nat.le_refl _
  | succ n ih => exact Nat.le_trans ih (succDay_year_mono (addDays n d))

theorem dateLt_trans {a b c : Date} (h1 : dateLt a b) (h2 : dateLt b c) : dateLt a c := by
  unfold dateLt at *; omega

theorem dateLt_succDay {d : Date} (h : Valid d) : dateLt d (succDay d) := by
  obtain ⟨h1, h2, h3, h4⟩ := h
  unfold succDay dateLt
  split_ifs <;> simp <;> omega

theorem dateLt_addDays {d : Date} (n : Nat) (h : Valid d) (hn : 0 < n) :
    dateLt d (addDays n d) := by
  induction n with
  | zero => omega
  | succ n ih =>
      rcases Nat.eq_zero_or_pos n with h0 | h0
      · subst h0; exact dateLt_succDay h
      · exact dateLt_trans (ih h0) (dateLt_succDay (valid_addDays n h))

theorem addDays_in_month {d : Date} (n : Nat) (h : Valid d)
    (hn : d.day + n ≤ daysInMonth d.year d.month) :
    addDays n d = Date.mk d.year d.month (d.day + n) := by
  induction n with
  | zero => rfl
  | succ n ih =>
      have hle : d.day + n ≤ daysInMonth d.year d.month := by omega
      show succDay (addDays n d) = _
      rw [ih hle]
      unfold succDay
      split_ifs with hd
      · rfl
      · exfalso; simp at hd; omega
      · exfalso; simp at hd; omega

theorem addDays_add (a b : Nat) (d : Date) :
    addDays (a + b) d = addDays b (addDays a d) := by
  induction b with
  | zero => rfl
  | succ b ih => show succDay (addDays (a + b) d) = _; rw [ih]; rfl

/-- Adding days past the end of the month, landing at most 28 days into
the following month. -/
theorem addDays_cross_month {d : Date} (n : Nat) (h : Valid d)
    (hover : daysInMonth d.year d.month < d.day + n)
    (hsmall : d.day + n - daysInMonth d.year d.month ≤ 28) :
    addDays n d =
      (if d.month < 12 then
        Date.mk d.year (d.month + 1) (d.day + n - daysInMonth d.year d.month)
      else
        Date.mk (d.year + 1) 1 (d.day + n - daysInMonth d.year d.month)) := by
  obtain ⟨h1, h2, h3, h4⟩ := h
  have hb := daysInMonth_bounds d.year d.month
  have hb1 := daysInMonth_bounds d.year (d.month + 1)
  have hb2 := daysInMonth_bounds (d.year + 1) 1
  have hmid : addDays (daysInMonth d.year d.month - d.day) d =
      Date.mk d.year d.month (daysInMonth d.year d.month) := by
    rw [addDays_in_month (daysInMonth d.year d.month - d.day) ⟨h1, h2, h3, h4⟩ (by omega)]
    simp only [Date.mk.injEq, true_and, and_true]
    omega
  have hsucc : succDay (Date.mk d.year d.month (daysInMonth d.year d.month)) =
      (if d.month < 12 then Date.mk d.year (d.month + 1) 1 else Date.mk (d.year + 1) 1 1) := by
    unfold succDay
    simp only []
    rw [if_neg (by simp)]
  have hdec : addDays n d =
      addDays (d.day + n - daysInMonth d.year d.month - 1)
        (succDay (addDays (daysInMonth d.year d.month - d.day) d)) := by
    have hk : n = (daysInMonth d.year d.month - d.day) + 1 +
        (d.day + n - daysInMonth d.year d.month - 1) := by omega
    conv_lhs => rw [hk]
    rw [addDays_add]
    rfl
  rw [hdec, hmid, hsucc]
  split_ifs with hm
  · rw [addDays_in_month (d.day + n - daysInMonth d.year d.month - 1)
      (valid_mk _ _ _ (by omega) (by omega) (by omega) (by omega)) (by simp; omega)]
    simp only [Date.mk.injEq, true_and, and_true]
    omega
  · rw [addDays_in_month (d.day + n - daysInMonth d.year d.month - 1)
      (valid_mk _ _ _ (by omega) (by omega) (by omega) (by omega)) (by simp; omega)]
    simp only [Date.mk.injEq, true_and, and_true]
    omega

theorem daysBeforeMonth_succ (y m : Nat) (h : 1 ≤ m) :
    daysBeforeMonth y (m + 1) = daysBeforeMonth y m + daysInMonth y m := by
  cases m with
  | zero => omega
  | succ k => rfl

theorem doy_succDay {d : Date} (h : Valid d) (hy : (succDay d).year = d.year) :
    doy (succDay d) = doy d + 1 := by
  obtain ⟨h1, h2, h3, h4⟩ := h
  unfold succDay at hy ⊢
  split_ifs at hy ⊢ with hd hm
  · show daysBeforeMonth d.year d.month + (d.day + 1) = daysBeforeMonth d.year d.month + d.day + 1
    omega
  · have hday : d.day = daysInMonth d.year d.month := by omega
    show daysBeforeMonth d.year (d.month + 1) + 1 = daysBeforeMonth d.year d.month + d.day + 1
    rw [daysBeforeMonth_succ d.year d.month h1]
    omega
  · exfalso
    exact absurd (show d.year + 1 = d.year from hy) (by omega)

theorem addDays_same_year_doy {d : Date} (n : Nat) (h : Valid d)
    (hy : (addDays n d).year = d.year) : doy (addDays n d) = doy d + n := by
  induction n with
  | zero => rfl
  | succ n ih =>
      have h1 : d.year ≤ (addDays n d).year := addDays_year_mono n d
      have h2 : (addDays n d).year ≤ (addDays (n + 1) d).year :=
        succDay_year_mono (addDays n d)
      have hmid : (addDays n d).year = d.year := by
        have : (addDays (n + 1) d).year = d.year := hy
        omega
      have hstep : (succDay (addDays n d)).year = (addDays n d).year := by
        have : (addDays (n + 1) d).year = d.year := hy
        show (addDays (n + 1) d).year = (addDays n d).year
        omega
      show doy (succDay (addDays n d)) = doy d + (n + 1)
      rw [doy_succDay (valid_addDays n h) hstep, ih hmid]
      omega

/-- If adding at most 16 days changes the year, the result lies in the
first `n` days of January of the following year. -/
theorem addDays_rollover {d : Date} (n : Nat) (h : Valid d) (hn : n ≤ 16)
    (hy : (addDays n d).year ≠ d.year) :
    (addDays n d).year = d.year + 1 ∧ (addDays n d).month = 1 ∧
      1 ≤ (addDays n d).day ∧ (addDays n d).day ≤ n := by
  induction n with
  | zero => exact absurd rfl hy
  | succ n ih =>
      have hjan : daysInMonth (d.year + 1) 1 = 31 := by
        unfold daysInMonth; norm_num
      have hstep : addDays (n + 1) d = succDay (addDays n d) := rfl
      by_cases hmid : (addDays n d).year = d.year
      · -- the year changes on this very step: succDay took its third branch
        rw [hstep] at hy ⊢
        unfold succDay at hy ⊢
        split_ifs at hy ⊢ with hd hm
        · exact absurd hmid hy
        · exact absurd hmid hy
        · exact ⟨show (addDays n d).year + 1 = d.year + 1 by omega, rfl,
            Nat.le_refl 1, show (1 : Nat) ≤ n + 1 by omega⟩
      · have hih := ih (by omega) hmid
        obtain ⟨i1, i2, i3, i4⟩ := hih
        have hday : (addDays n d).day < daysInMonth (addDays n d).year (addDays n d).month := by
          rw [i1, i2, hjan]; omega
        rw [hstep]
        unfold succDay
        rw [if_pos hday]
        exact ⟨i1, i2, show 1 ≤ (addDays n d).day + 1 by omega,
          show (addDays n d).day + 1 ≤ n + 1 by omega⟩

/-! ## Helper lemmas: one cadence step preserves legality and increases the date -/

theorem chirpsStep_ok {d : Date} (h : chirpsLegal d) :
    chirpsLegal (chirpsStep d) ∧ dateLt d (chirpsStep d) := by
  obtain ⟨hv, hday⟩ := h
  obtain ⟨h1, h2, h3, h4⟩ := hv
  have hb := daysInMonth_bounds d.year d.month
  unfold chirpsStep
  rcases hday with hd | hd | hd <;>
    [rw [if_neg (by omega)]; rw [if_neg (by omega)]; skip]
  · rw [addDays_in_month 10 ⟨h1, h2, h3, h4⟩ (by omega)]
    refine ⟨⟨valid_mk _ _ _ h1 h2 (by omega) (by omega),
      show d.day + 10 = 1 ∨ d.day + 10 = 11 ∨ d.day + 10 = 21 by omega⟩, ?_⟩
    exact Or.inr ⟨rfl, Or.inr ⟨rfl, show d.day < d.day + 10 by omega⟩⟩
  · rw [addDays_in_month 10 ⟨h1, h2, h3, h4⟩ (by omega)]
    refine ⟨⟨valid_mk _ _ _ h1 h2 (by omega) (by omega),
      show d.day + 10 = 1 ∨ d.day + 10 = 11 ∨ d.day + 10 = 21 by omega⟩, ?_⟩
    exact Or.inr ⟨rfl, Or.inr ⟨rfl, show d.day < d.day + 10 by omega⟩⟩
  · have hpush := addDays_cross_month 15 ⟨h1, h2, h3, h4⟩ (by omega) (by omega)
    have hb1 := daysInMonth_bounds d.year (d.month + 1)
    have hb2 := daysInMonth_bounds (d.year + 1) 1
    rw [if_pos (by omega : 12 < d.day)]
    by_cases hm : d.month < 12
    · rw [if_pos hm] at hpush
      rw [hpush]
      show chirpsLegal (Date.mk d.year (d.month + 1) 1) ∧
        dateLt d (Date.mk d.year (d.month + 1) 1)
      refine ⟨⟨valid_mk _ _ _ (by omega) (by omega) (by omega) (by omega), Or.inl rfl⟩, ?_⟩
      exact Or.inr ⟨rfl, Or.inl (show d.month < d.month + 1 by omega)⟩
    · rw [if_neg hm] at hpush
      rw [hpush]
      show chirpsLegal (Date.mk (d.year + 1) 1 1) ∧ dateLt d (Date.mk (d.year + 1) 1 1)
      refine ⟨⟨valid_mk _ _ _ (by omega) (by omega) (by omega) (by omega), Or.inl rfl⟩, ?_⟩
      exact Or.inl (show d.year < d.year + 1 by omega)

/-- One cadence step of the NDVI chronology helpers: provided the step is
at most 16 days and the reset day / step width respect the cadence
congruence, the step preserves `Valid` and the day-of-year residue, and
strictly increases the date. -/
theorem modisStep_ok {d : Date} (step reset M rem : Nat)
    (hstep1 : 1 ≤ step) (hstep16 : step ≤ 16)
    (hreset1 : 1 ≤ reset) (hreset31 : reset ≤ 31)
    (hstepmod : ∀ k, k % M = rem → (k + step) % M = rem)
    (hresetrem : reset % M = rem)
    (hv : Valid d) (hdoy : doy d % M = rem) :
    (Valid (modisStep step reset d) ∧ doy (modisStep step reset d) % M = rem) ∧
      dateLt d (modisStep step reset d) := by
  unfold modisStep
  by_cases hy : (addDays step d).year = d.year
  · rw [if_neg (not_not_intro hy)]
    refine ⟨⟨valid_addDays step hv, ?_⟩, dateLt_addDays step hv (by omega)⟩
    rw [addDays_same_year_doy step hv hy]
    exact hstepmod _ hdoy
  · rw [if_pos hy]
    obtain ⟨r1, r2, r3, r4⟩ := addDays_rollover step hv (by omega) hy
    have h31 : daysInMonth (d.year + 1) 1 = 31 := by unfold daysInMonth; norm_num
    have hvres : Valid { addDays step d with day := reset } := by
      refine ⟨?_, ?_, hreset1, ?_⟩
      · show 1 ≤ (addDays step d).month; omega
      · show (addDays step d).month ≤ 12; omega
      · show reset ≤ daysInMonth (addDays step d).year (addDays step d).month
        rw [r1, r2, h31]; omega
    have hdoyres : doy { addDays step d with day := reset } = reset := by
      show daysBeforeMonth (addDays step d).year (addDays step d).month + reset = reset
      rw [r2]
      show 0 + reset = reset
      omega
    refine ⟨⟨hvres, by rw [hdoyres]; exact hresetrem⟩,
      Or.inl (show d.year < (addDays step d).year by omega)⟩

/-- The generation loop produces only dates satisfying a step-invariant
predicate, in a strictly increasing chain. -/
theorem getChrono_ok (step : Date → Date) (P : Date → Prop)
    (hstep : ∀ d, P d → P (step d) ∧ dateLt d (step d)) (today : Date) :
    ∀ fuel d, P d →
      (∀ x ∈ getChrono step today fuel d, P x) ∧
        List.Chain' dateLt (d :: getChrono step today fuel d) := by
  intro fuel
  induction fuel with
  | zero =>
      intro d _
      exact ⟨fun x hx => absurd hx (List.not_mem_nil x), List.chain'_singleton d⟩
  | succ fuel ih =>
      intro d hd
      simp only [getChrono]
      split_ifs with ht
      · obtain ⟨hP, hlt⟩ := hstep d hd
        obtain ⟨ih1, ih2⟩ := ih (step d) hP
        refine ⟨?_, List.chain'_cons.mpr ⟨hlt, ih2⟩⟩
        intro x hx
        rcases List.mem_cons.mp hx with rfl | hx
        · exact hP
        · exact ih1 x hx
      · exact ⟨fun x hx => absurd hx (List.not_mem_nil x), List.chain'_singleton d⟩

/-! ## Claim theorems -/

/-- C8: for every product and cadence-legal latest catalog date, the
candidate-date sequence generated by the gap-detection refresh loop
(`getChrono*` of `ToDoList.refresh`, any fuel bound on the
`while latest < today` loop) is strictly increasing and contains only
cadence-legal dates: CHIRPS dekads fall on days 1, 11 or 21 of a month;
the 8-day cadence (MOD09Q1/MYD09Q1) and the anchored 16-day cadence
(MOD13Q1) reset to day-of-year 1 at year rollover; the offset 16-day
cadence (MYD13Q1) resets to day-of-year 9. -/
theorem refresh_candidate_dates (today start : Date) (fuel : Nat) :
    (chirpsLegal start →
      (∀ x ∈ getChrono chirpsStep today fuel start, chirpsLegal x) ∧
        List.Chain' dateLt (start :: getChrono chirpsStep today fuel start)) ∧
    (legal8 start →
      (∀ x ∈ getChrono (modisStep 8 1) today fuel start, legal8 x) ∧
        List.Chain' dateLt (start :: getChrono (modisStep 8 1) today fuel start)) ∧
    (legal16 start →
      (∀ x ∈ getChrono (modisStep 16 1) today fuel start, legal16 x) ∧
        List.Chain' dateLt (start :: getChrono (modisStep 16 1) today fuel start)) ∧
    (legal16off start →
      (∀ x ∈ getChrono (modisStep 16 9) today fuel start, legal16off x) ∧
        List.Chain' dateLt (start :: getChrono (modisStep 16 9) today fuel start)) := by
  have h8 : ∀ d, legal8 d → legal8 (modisStep 8 1 d) ∧ dateLt d (modisStep 8 1 d) := by
    intro d hd
    have := modisStep_ok 8 1 8 1 (by omega) (by omega) (by omega) (by omega)
      (fun k hk => by omega) (by omega) hd.1 hd.2
    exact ⟨this.1, this.2⟩
  have h16 : ∀ d, legal16 d → legal16 (modisStep 16 1 d) ∧ dateLt d (modisStep 16 1 d) := by
    intro d hd
    have := modisStep_ok 16 1 16 1 (by omega) (by omega) (by omega) (by omega)
      (fun k hk => by omega) (by omega) hd.1 hd.2
    exact ⟨this.1, this.2⟩
  have h16o : ∀ d, legal16off d → legal16off (modisStep 16 9 d) ∧ dateLt d (modisStep 16 9 d) := by
    intro d hd
    have := modisStep_ok 16 9 16 9 (by omega) (by omega) (by omega) (by omega)
      (fun k hk => by omega) (by omega) hd.1 hd.2
    exact ⟨this.1, this.2⟩
  exact ⟨fun h => getChrono_ok chirpsStep chirpsLegal (fun d hd => chirpsStep_ok hd) today fuel start h,
    fun h => getChrono_ok (modisStep 8 1) legal8 h8 today fuel start h,
    fun h => getChrono_ok (modisStep 16 1) legal16 h16 today fuel start h,
    fun h => getChrono_ok (modisStep 16 9) legal16off h16o today fuel start h⟩

/-- Witness for C8: the four cadence hypotheses hold at concrete legal
catalog dates (2019-11-21 for dekads; 2019-12-27, day-of-year 361, for the
8-day and offset 16-day cadences; 2019-12-19, day-of-year 353, for the
anchored 16-day cadence), and the theorem yields the four conclusions. -/
theorem refresh_candidate_dates_witness :
    (chirpsLegal (Date.mk 2019 11 21) ∧ legal8 (Date.mk 2019 12 27) ∧
      legal16 (Date.mk 2019 12 19) ∧ legal16off (Date.mk 2019 12 27)) ∧
    ((∀ x ∈ getChrono chirpsStep (Date.mk 2020 3 1) 12 (Date.mk 2019 11 21), chirpsLegal x) ∧
      List.Chain' dateLt
        ((Date.mk 2019 11 21) :: getChrono chirpsStep (Date.mk 2020 3 1) 12 (Date.mk 2019 11 21))) ∧
    ((∀ x ∈ getChrono (modisStep 8 1) (Date.mk 2020 3 1) 12 (Date.mk 2019 12 27), legal8 x) ∧
      List.Chain' dateLt
        ((Date.mk 2019 12 27) :: getChrono (modisStep 8 1) (Date.mk 2020 3 1) 12 (Date.mk 2019 12 27))) ∧
    ((∀ x ∈ getChrono (modisStep 16 1) (Date.mk 2020 3 1) 12 (Date.mk 2019 12 19), legal16 x) ∧
      List.Chain' dateLt
        ((Date.mk 2019 12 19) :: getChrono (modisStep 16 1) (Date.mk 2020 3 1) 12 (Date.mk 2019 12 19))) ∧
    ((∀ x ∈ getChrono (modisStep 16 9) (Date.mk 2020 3 1) 12 (Date.mk 2019 12 27), legal16off x) ∧
      List.Chain' dateLt
        ((Date.mk 2019 12 27) :: getChrono (modisStep 16 9) (Date.mk 2020 3 1) 12 (Date.mk 2019 12 27))) :=
  ⟨⟨by decide, by decide, by decide, by decide⟩,
    (refresh_candidate_dates (Date.mk 2020 3 1) (Date.mk 2019 11 21) 12).1 (by decide),
    (refresh_candidate_dates (Date.mk 2020 3 1) (Date.mk 2019 12 27) 12).2.1 (by decide),
    (refresh_candidate_dates (Date.mk 2020 3 1) (Date.mk 2019 12 19) 12).2.2.1 (by decide),
    (refresh_candidate_dates (Date.mk 2020 3 1) (Date.mk 2019 12 27) 12).2.2.2 (by decide)⟩

/-- C1 (code bug evidence): `zonalStats` cannot return the per-region
statistics map on any input.  The source binds the window list to the
local name `window` but then iterates over the never-bound name
`windows`, so every call raises `NameError` before any window worker
runs. -/
theorem zonalStats_always_raises (product_tiled : Bool)
    (blockxsize width height n_cores block_scale_factor default_block_size : Nat) :
    zonalStats product_tiled blockxsize width height n_cores block_scale_factor
        default_block_size =
      Except.error "NameError: name windows is not defined" := rfl

/-- C2 counterexample: on the row with `processed = 1, statGen = 0,
completed = 0`, the mutation `setStatus("statGen", True)` commits a row
with `completed = 0` although `processed AND statGen = 1`; the claimed
invariant `completed = processed AND statGen` fails right after the
mutation. -/
theorem setStatus_completed_cex :
    (setStatus "statGen" true (StatusRow.mk true true false false)).completed ≠
      ((setStatus "statGen" true (StatusRow.mk true true false false)).processed &&
        (setStatus "statGen" true (StatusRow.mk true true false false)).statGen) := by
  decide

/-- C2 (amended): `setStatus` writes only the named flag and never
touches `completed`; `completed` is re-derived only by the bulk UPDATE at
the start of `ToDoList.refresh`, which sets it to 1 exactly on rows with
`processed = 1 AND statGen = 1` and never clears it. -/
theorem setStatus_leaves_completed (stage : String) (status : Bool) (r : StatusRow) :
    (setStatus stage status r).completed = r.completed ∧
      (refreshCompleted r).completed = (r.completed || (r.processed && r.statGen)) ∧
      (refreshCompleted r).processed = r.processed ∧
      (refreshCompleted r).statGen = r.statGen := by
  unfold setStatus refreshCompleted
  split_ifs <;> simp_all

/-- C3 counterexample: for day-of-month 11 the dekad integer placed in
the CHIRPS upstream URL is `ceil(11 / 10) = 2`, not 1 as claimed. -/
theorem chirpsUrlDekad_cex : chirpsUrlDekad 11 = 2 ∧ chirpsUrlDekad 11 ≠ 1 := by
  decide

/-- C3 (amended): the dekad integer in the CHIRPS URL is the ceiling of
`day / 10`: 1 for days 1–10, 2 for days 11–20, 3 for days 21–30, and 4
for day 31; on the cadence-legal days 1, 11 and 21 it is 1, 2 and 3
respectively. -/
theorem chirpsUrlDekad_spec (day : Nat) (h1 : 1 ≤ day) (h2 : day ≤ 31) :
    chirpsUrlDekad day =
      (if day ≤ 10 then 1 else if day ≤ 20 then 2 else if day ≤ 30 then 3 else 4) ∧
      chirpsUrlDekad 1 = 1 ∧ chirpsUrlDekad 11 = 2 ∧ chirpsUrlDekad 21 = 3 := by
  unfold chirpsUrlDekad
  refine ⟨?_, by decide, by decide, by decide⟩
  split_ifs <;> omega

/-- Witness for C3 at day 21. -/
theorem chirpsUrlDekad_spec_witness :
    (1 ≤ 21 ∧ (21 : Nat) ≤ 31) ∧
      (chirpsUrlDekad 21 =
        (if 21 ≤ 10 then 1 else if 21 ≤ 20 then 2 else if (21 : Nat) ≤ 30 then 3 else 4) ∧
        chirpsUrlDekad 1 = 1 ∧ chirpsUrlDekad 11 = 2 ∧ chirpsUrlDekad 21 = 3) :=
  ⟨⟨by decide, by decide⟩, chirpsUrlDekad_spec 21 (by decide) (by decide)⟩

/-- C7 (code bug evidence): when `Image.uploadStats` hits
`OperationalError` on `failures` consecutive calls, the call chain makes
`failures + 1` attempts for every `failures` — the retry count is
unbounded, because the local `retries` counter is never incremented and
the `retries <= 3` guard therefore always passes (the "3 retries used
up" branch is unreachable).  In particular 10 consecutive failures
produce 11 attempts, where the claim allows at most 4. -/
theorem uploadStatsAttempts_unbounded (failures : Nat) :
    uploadStatsAttempts failures = failures + 1 := by
  induction failures with
  | zero => rfl
  | succ n ih =>
      show (if (0 : Nat) ≤ 3 then 1 + uploadStatsAttempts n else 1) = n + 1 + 1
      rw [if_pos (by omega)]
      omega

/-- C6 counterexample: a Content-Length mismatch on the first MERRA-2
day-file makes `downloadMerra2` return the empty tuple while the partial
NetCDF `merra-2.20191201.NETCDF.TEMP.nc` is still on disk: this download
step deletes nothing on checksum failure. -/
theorem downloadMerra2_checksum_cex :
    downloadMerra2Model "2019-12-01" [("20191201", 5, 6)] =
      ([], ["merra-2.20191201.NETCDF.TEMP.nc"]) := rfl

/-- C6 (amended): on a Content-Length mismatch every download step
returns the empty tuple; the chirps, chirps-prelim and swi steps also
delete the partially fetched file, leaving the temp directory empty, but
the merra-2 step leaves the partial NetCDF of the failing day (and the
extracted tiffs of the previous days) on disk. -/
theorem download_checksum_mismatch (date urlDate : String) (observed expected : Nat)
    (rest : List (String × Nat × Nat)) (disk : List String)
    (h : observed ≠ expected) :
    downloadChirpsModel date true observed expected = ([], []) ∧
      downloadChirpsPrelimModel date true observed expected = ([], []) ∧
      downloadSwiModel date observed expected = ([], []) ∧
      downloadMerra2Loop date ((urlDate, observed, expected) :: rest) disk =
        ([], disk ++ ["merra-2." ++ urlDate ++ ".NETCDF.TEMP.nc"]) := by
  refine ⟨?_, ?_, ?_, ?_⟩
  · unfold downloadChirpsModel
    rw [if_neg (by simp), if_pos h]
    simp [List.erase_cons_head]
  · unfold downloadChirpsPrelimModel
    rw [if_neg (by simp), if_pos h]
    simp [List.erase_cons_head]
  · unfold downloadSwiModel
    rw [if_pos h]
    simp [List.erase_cons_head]
  · unfold downloadMerra2Loop
    rw [if_pos h]

/-- Witness for C6 at a concrete mismatch (5 bytes observed, 6 promised). -/
theorem download_checksum_mismatch_witness :
    (5 : Nat) ≠ 6 ∧
      (downloadChirpsModel "2019-12-01" true 5 6 = ([], []) ∧
        downloadChirpsPrelimModel "2019-12-01" true 5 6 = ([], []) ∧
        downloadSwiModel "2019-12-01" 5 6 = ([], []) ∧
        downloadMerra2Loop "2019-12-01" [("20191201", 5, 6)] [] =
          ([], [] ++ ["merra-2." ++ "20191201" ++ ".NETCDF.TEMP.nc"])) :=
  ⟨by decide, download_checksum_mismatch "2019-12-01" "20191201" 5 6 [] [] (by decide)⟩

/-- C10: `purge` with any authorization digest different from the
hard-coded SHA-256 digest returns `None` and performs no mutation at
all: no stats-table columns are dropped, no `product_status` or
`datasets` rows are deleted, no object-store key is removed, and no
local file is touched. -/
theorem purge_unauthorized (product date : String) (auth_hash : List Nat) (fileOnS3 : Bool)
    (statsNames : List String) (doyStr : String) (st : GlamState)
    (h : auth_hash ≠ authorizedHash) :
    purge product date auth_hash fileOnS3 statsNames doyStr st = (none, st) := by
  unfold purge
  rw [if_pos h]

/-- Witness for C10: the digest `[0]` is not the authorized digest, and
purging with it returns `None` leaving a concrete nonempty state intact. -/
theorem purge_unauthorized_witness :
    ([0] : List Nat) ≠ authorizedHash ∧
      purge "chirps-prelim" "2019-12-01" [0] true ["stats_1"] "335"
          (GlamState.mk [("stats_1", "val.335")] [("chirps-prelim", "2019-12-01")]
            [("chirps-prelim", "2019-12-01")] ["rasters/chirps-prelim.2019-12-01.tif"] []) =
        (none,
          GlamState.mk [("stats_1", "val.335")] [("chirps-prelim", "2019-12-01")]
            [("chirps-prelim", "2019-12-01")] ["rasters/chirps-prelim.2019-12-01.tif"] []) :=
  ⟨by decide,
    purge_unauthorized "chirps-prelim" "2019-12-01" [0] true ["stats_1"] "335" _ (by decide)⟩

/-! ## Helper lemmas: stats-table row updates (C4) -/

theorem getCell_setCell_isSome (col col2 : String) (v : Int) (cells : List (String × Int))
    (h : (getCell col2 cells).isSome ∨ col2 = col) :
    (getCell col2 (setCell col v cells)).isSome := by
  induction cells with
  | nil =>
      rcases h with h | rfl
      · simp [getCell] at h
      · simp [setCell, getCell]
  | cons hd tl ih =>
      obtain ⟨c, w⟩ := hd
      unfold setCell
      split_ifs with hc
      · subst hc
        unfold getCell at h ⊢
        split_ifs at h ⊢ with h2
        · simp
        · rcases h with h | rfl
          · exact h
          · exact absurd rfl h2
      · unfold getCell at h ⊢
        split_ifs at h ⊢ with h2
        · simp
        · rcases h with h | h
          · exact ih (Or.inl h)
          · exact ih (Or.inr h)

theorem updateColumn_mem {rows : List TableRow} {r : TableRow} (a : Int) (col : String)
    (v : Int) (hr : r ∈ rows) (ha : r.admin = a) :
    TableRow.mk r.admin r.arable (setCell col v r.cells) ∈ updateColumn a col v rows := by
  unfold updateColumn
  refine List.mem_map.mpr ⟨r, hr, ?_⟩
  rw [if_pos ha]

theorem updateColumn_preserve {rows : List TableRow} {r : TableRow} (a : Int) (col : String)
    (v : Int) (hr : r ∈ rows) :
    ∃ tr ∈ updateColumn a col v rows, tr.admin = r.admin ∧ tr.arable = r.arable ∧
      (tr.cells = r.cells ∨ tr.cells = setCell col v r.cells) := by
  unfold updateColumn
  refine ⟨_, List.mem_map.mpr ⟨r, hr, rfl⟩, ?_⟩
  split_ifs <;> simp

/-- The per-region property C4 is about: the table has a row for this
admin id with both doy cells populated. -/
def HasFullRow (valCol pctCol : String) (a : Int) (t : StatsTable) : Prop :=
  ∃ tr ∈ t.rows, tr.admin = a ∧ (getCell valCol tr.cells).isSome ∧
    (getCell pctCol tr.cells).isSome

theorem appendRowModis_preserves {valCol pctCol : String} {a : Int} {t : StatsTable}
    (row : DfRow) (h : HasFullRow valCol pctCol a t) :
    HasFullRow valCol pctCol a (appendRowModis valCol pctCol t row) := by
  obtain ⟨r, hr, ha, hv, hp⟩ := h
  obtain ⟨r1, hr1, e1, _, hc1⟩ := updateColumn_preserve row.admin valCol row.value hr
  obtain ⟨r2, hr2, e2, _, hc2⟩ := updateColumn_preserve row.admin pctCol row.pct hr1
  have hv1 : (getCell valCol r1.cells).isSome := by
    rcases hc1 with h1 | h1 <;> rw [h1]
    · exact hv
    · exact getCell_setCell_isSome _ _ _ _ (Or.inr rfl)
  have hv2 : (getCell valCol r2.cells).isSome := by
    rcases hc2 with h2 | h2 <;> rw [h2]
    · exact hv1
    · exact getCell_setCell_isSome _ _ _ _ (Or.inl hv1)
  have hp1 : (getCell pctCol r1.cells).isSome := by
    rcases hc1 with h1 | h1 <;> rw [h1]
    · exact hp
    · exact getCell_setCell_isSome _ _ _ _ (Or.inl hp)
  have hp2 : (getCell pctCol r2.cells).isSome := by
    rcases hc2 with h2 | h2 <;> rw [h2]
    · exact hp1
    · exact getCell_setCell_isSome _ _ _ _ (Or.inr rfl)
  unfold appendRowModis
  split_ifs
  · exact ⟨r2, hr2, by omega, hv2, hp2⟩
  · exact ⟨r2, List.mem_append_left _ hr2, by omega, hv2, hp2⟩

theorem appendRowModis_ensures (valCol pctCol : String) (t : StatsTable) (row : DfRow) :
    HasFullRow valCol pctCol row.admin (appendRowModis valCol pctCol t row) := by
  unfold appendRowModis
  split_ifs with hm
  · obtain ⟨r0, hr0, ha0⟩ := List.any_eq_true.mp hm
    have ha0 : r0.admin = row.admin := of_decide_eq_true ha0
    have h1 := updateColumn_mem row.admin valCol row.value hr0 ha0
    have h2 := updateColumn_mem row.admin pctCol row.pct h1 ha0
    refine ⟨_, h2, ha0, ?_, ?_⟩
    · exact getCell_setCell_isSome _ _ _ _ (Or.inl (getCell_setCell_isSome _ _ _ _ (Or.inr rfl)))
    · exact getCell_setCell_isSome _ _ _ _ (Or.inr rfl)
  · refine ⟨TableRow.mk row.admin row.arable [(valCol, row.value), (pctCol, row.pct)],
      List.mem_append_right _ (List.mem_singleton.mpr rfl), rfl, ?_, ?_⟩
    · show (getCell valCol [(valCol, row.value), (pctCol, row.pct)]).isSome
      simp [getCell]
    · show (getCell pctCol [(valCol, row.value), (pctCol, row.pct)]).isSome
      unfold getCell
      split_ifs <;> simp [getCell]

theorem foldl_appendRowModis_preserves (valCol pctCol : String) (a : Int) :
    ∀ (df : List DfRow) (t : StatsTable), HasFullRow valCol pctCol a t →
      HasFullRow valCol pctCol a (df.foldl (appendRowModis valCol pctCol) t) := by
  intro df
  induction df with
  | nil => intro t h; exact h
  | cons hd tl ih =>
      intro t h
      rw [List.foldl_cons]
      exact ih _ (appendRowModis_preserves hd h)

theorem foldl_appendRowModis_ensures (valCol pctCol : String) :
    ∀ (df : List DfRow) (t0 : StatsTable) (row : DfRow), row ∈ df →
      HasFullRow valCol pctCol row.admin (df.foldl (appendRowModis valCol pctCol) t0) := by
  intro df
  induction df with
  | nil => intro t0 row h; cases h
  | cons hd tl ih =>
      intro t0 row h
      rw [List.foldl_cons]
      rcases List.mem_cons.mp h with rfl | h2
      · exact foldl_appendRowModis_preserves _ _ _ tl _ (appendRowModis_ensures _ _ _ row)
      · exact ih _ row h2

theorem updateColumn_admins (a : Int) (col : String) (v : Int) (rows : List TableRow) :
    (updateColumn a col v rows).map (fun r => r.admin) = rows.map (fun r => r.admin) := by
  unfold updateColumn
  rw [List.map_map]
  congr 1
  funext r
  show (if r.admin = a then _ else r).admin = r.admin
  split_ifs <;> rfl

theorem foldl_appendRowImage_admins (valCol pctCol : String) :
    ∀ (df : List DfRow) (t : StatsTable),
      ((df.foldl (appendRowImage valCol pctCol) t).rows).map (fun r => r.admin) =
        t.rows.map (fun r => r.admin) := by
  intro df
  induction df with
  | nil => intro t; rfl
  | cons hd tl ih =>
      intro t
      rw [List.foldl_cons, ih]
      show (updateColumn hd.admin pctCol hd.pct
          (updateColumn hd.admin valCol hd.value t.rows)).map (fun r => r.admin) = _
      rw [updateColumn_admins, updateColumn_admins]

/-- C4 counterexample: materializing the result map `[admin 1]` into an
existing-but-empty `stats_{N}` table through the ancillary
`Image.uploadStats.append_to_stats_table` leaves the table without any
row for admin 1: the claimed zero-rowcount INSERT does not happen in
that code path. -/
theorem appendImage_missing_row_cex :
    ¬ ∃ tr ∈ (appendToStatsTableImage "335" [DfRow.mk 1 10 50 20]
        (StatsTable.mk ["admin", "arable"] [])).rows, tr.admin = 1 := by
  decide

/-- C4 (amended): the NDVI `ModisImage.uploadStats.append_to_stats_table`
guarantees the claim — after the append, every region id of the result
map has a row with `admin = r` and both `val.{doy}` and `pct.{doy}`
cells populated, the zero-rowcount UPDATE case being handled by an
INSERT.  The ancillary `Image.uploadStats.append_to_stats_table` never
inserts: the multiset of `admin` ids of the table rows is unchanged, so
a region id absent from the table stays absent. -/
theorem appendToStatsTable_spec (doyStr : String) (df : List DfRow) (t : StatsTable)
    (row : DfRow) (h : row ∈ df) :
    HasFullRow ("val." ++ doyStr) ("pct." ++ doyStr) row.admin
        (appendToStatsTableModis doyStr df t) ∧
      ((appendToStatsTableImage doyStr df t).rows).map (fun r => r.admin) =
        t.rows.map (fun r => r.admin) := by
  constructor
  · exact foldl_appendRowModis_ensures _ _ df _ row h
  · unfold appendToStatsTableImage
    rw [foldl_appendRowImage_admins]
    unfold ensureColumn
    split_ifs <;> rfl

/-- Witness for C4: one dataframe row with admin id 7 appended into an
existing empty table through the NDVI path. -/
theorem appendToStatsTable_spec_witness :
    (DfRow.mk 7 10 50 20) ∈ [DfRow.mk 7 10 50 20] ∧
      (HasFullRow ("val." ++ "335") ("pct." ++ "335") (DfRow.mk 7 10 50 20).admin
          (appendToStatsTableModis "335" [DfRow.mk 7 10 50 20]
            (StatsTable.mk ["admin", "arable"] [])) ∧
        ((appendToStatsTableImage "335" [DfRow.mk 7 10 50 20]
            (StatsTable.mk ["admin", "arable"] [])).rows).map (fun r => r.admin) =
          (StatsTable.mk ["admin", "arable"] []).rows.map (fun r => r.admin)) :=
  ⟨by decide, appendToStatsTable_spec "335" [DfRow.mk 7 10 50 20]
    (StatsTable.mk ["admin", "arable"] []) (DfRow.mk 7 10 50 20) (by decide)⟩

/-- C5 counterexample: for the admitted pair (gaul1, maize) whose stats
table exists and has its `val.{doy}` column but lacks `pct.{doy}`, the
Rectifier does not report the pair as missing — `getMissingStats` never
probes the `pct.{doy}` column, contradicting the claimed
if-and-only-if. -/
theorem getMissingStats_pct_cex :
    "maize" ∈ adminCropsMatchup "gaul1" ∧
      (TableState.mk true true false).hasPctCol = false ∧
      ("gaul1", "maize") ∉ getMissingStats (fun _ _ => TableState.mk true true false) := by
  decide

/-- C5 (amended): for every admitted (region, mask) pair the Rectifier
reports the pair as missing if and only if the stats table for its key
tuple does not exist or lacks the `val.{doy}` column; the `pct.{doy}`
column is never consulted. -/
theorem getMissingStats_spec (tbl : String → String → TableState) (admin crop : String)
    (hadmin : admin ∈ admins) (hmatch : crop ∈ adminCropsMatchup admin)
    (hcrop : crop ∈ crops) :
    (admin, crop) ∈ getMissingStats tbl ↔
      ((tbl crop admin).tableExists = false ∨ (tbl crop admin).hasValCol = false) := by
  unfold getMissingStats
  rw [List.mem_flatMap]
  constructor
  · rintro ⟨crop2, hcrop2, hmem⟩
    rw [List.mem_filterMap] at hmem
    obtain ⟨admin2, hadmin2, heq⟩ := hmem
    by_cases h1 : crop2 ∉ adminCropsMatchup admin2
    · rw [if_pos h1] at heq
      exact absurd heq (by simp)
    · rw [if_neg h1] at heq
      by_cases h2 : ¬ (tbl crop2 admin2).tableExists = true
      · rw [if_pos h2] at heq
        have ha : admin2 = admin := congrArg Prod.fst (Option.some.inj heq)
        have hc : crop2 = crop := congrArg Prod.snd (Option.some.inj heq)
        rw [ha, hc] at h2
        exact Or.inl (by revert h2; cases (tbl crop admin).tableExists <;> simp)
      · rw [if_neg h2] at heq
        by_cases h3 : ¬ (tbl crop2 admin2).hasValCol = true
        · rw [if_pos h3] at heq
          have ha : admin2 = admin := congrArg Prod.fst (Option.some.inj heq)
          have hc : crop2 = crop := congrArg Prod.snd (Option.some.inj heq)
          rw [ha, hc] at h3
          exact Or.inr (by revert h3; cases (tbl crop admin).hasValCol <;> simp)
        · rw [if_neg h3] at heq
          exact absurd heq (by simp)
  · intro hcase
    refine ⟨crop, hcrop, ?_⟩
    rw [List.mem_filterMap]
    refine ⟨admin, ?_, ?_⟩
    · rw [List.mem_filter]
      exact ⟨hadmin, by simpa using hmatch⟩
    · rw [if_neg (by simpa using hmatch)]
      rcases hcase with hex | hval
      · rw [if_pos (by simp [hex])]
      · by_cases hex2 : (tbl crop admin).tableExists = true
        · rw [if_neg (by simp [hex2]), if_pos (by simp [hval])]
        · rw [if_pos (by simpa using hex2)]

/-- Witness for C5: the pair (gaul1, maize) against a catalog where no
physical stats table exists. -/
theorem getMissingStats_spec_witness :
    ("gaul1" ∈ admins ∧ "maize" ∈ adminCropsMatchup "gaul1" ∧ "maize" ∈ crops) ∧
      (("gaul1", "maize") ∈ getMissingStats (fun _ _ => TableState.mk false false false) ↔
        (((fun (_ _ : String) => TableState.mk false false false) "maize" "gaul1").tableExists
            = false ∨
          ((fun (_ _ : String) => TableState.mk false false false) "maize" "gaul1").hasValCol
            = false)) :=
  ⟨⟨by decide, by decide, by decide⟩,
    getMissingStats_spec (fun _ _ => TableState.mk false false false) "gaul1" "maize"
      (by decide) (by decide) (by decide)⟩

/-! ## Helper lemmas: window grid (C9) -/

theorem lt_ceilDiv_iff {n step k : Nat} (hs : 0 < step) :
    k < (n + step - 1) / step ↔ k * step < n := by
  rw [Nat.lt_iff_add_one_le, Nat.le_div_iff_mul_le hs]
  have h1 : (k + 1) * step = k * step + step := by ring
  rw [h1]
  omega

theorem mem_rangeStep {n step : Nat} (hs : 0 < step) (x : Nat) :
    x ∈ rangeStep n step ↔ ∃ k, x = k * step ∧ k * step < n := by
  unfold rangeStep
  simp only [List.mem_map, List.mem_range]
  constructor
  · rintro ⟨k, hk, rfl⟩
    exact ⟨k, rfl, (lt_ceilDiv_iff hs).mp hk⟩
  · rintro ⟨k, rfl, hk⟩
    exact ⟨k, (lt_ceilDiv_iff hs).mpr hk, rfl⟩

theorem mem_getWindows {width height bs : Nat} (hbs : 0 < bs) (w : Window) :
    w ∈ getWindows width height bs ↔
      ∃ i j, i * bs < width ∧ j * bs < height ∧
        w = Window.mk (i * bs) (j * bs)
          (if width < i * bs + bs then width % bs else bs)
          (if height < j * bs + bs then height % bs else bs) := by
  unfold getWindows
  simp only [List.mem_flatMap, List.mem_map]
  constructor
  · rintro ⟨hstart, hh, vstart, hv, rfl⟩
    rw [mem_rangeStep hbs] at hh hv
    obtain ⟨i, rfl, hi⟩ := hh
    obtain ⟨j, rfl, hj⟩ := hv
    exact ⟨i, j, hi, hj, rfl⟩
  · rintro ⟨i, j, hi, hj, rfl⟩
    exact ⟨i * bs, (mem_rangeStep hbs _).mpr ⟨i, rfl, hi⟩,
      j * bs, (mem_rangeStep hbs _).mpr ⟨j, rfl, hj⟩, rfl⟩

/-- The trimmed 1-D segment starting at `i * bs` fits inside `[0, width)`
and is nonempty. -/
theorem segment_le {width bs i : Nat} (hbs : 0 < bs) (hi : i * bs < width) :
    i * bs + (if width < i * bs + bs then width % bs else bs) ≤ width ∧
      0 < (if width < i * bs + bs then width % bs else bs) := by
  split_ifs with hov
  · have hidiv : width / bs = i :=
      Nat.div_eq_of_lt_le (Nat.le_of_lt hi) (by rw [Nat.succ_mul]; exact hov)
    have hmd := Nat.mod_add_div width bs
    rw [hidiv, Nat.mul_comm bs i] at hmd
    constructor <;> omega
  · constructor <;> omega

/-- On pixels inside the raster, lying in the 1-D segment of index `i` is
the same as `i` being the pixel's block index `x / bs`. -/
theorem segment_mem {width bs i x : Nat} (hbs : 0 < bs) (hi : i * bs < width)
    (hx : x < width) :
    (i * bs ≤ x ∧ x < i * bs + (if width < i * bs + bs then width % bs else bs)) ↔
      x / bs = i := by
  constructor
  · rintro ⟨hl, hr⟩
    have hwle : (if width < i * bs + bs then width % bs else bs) ≤ bs := by
      split_ifs
      · exact Nat.le_of_lt (Nat.mod_lt _ hbs)
      · exact Nat.le_refl bs
    refine Nat.div_eq_of_lt_le hl ?_
    rw [Nat.succ_mul]
    omega
  · rintro rfl
    refine ⟨Nat.div_mul_le_self x bs, ?_⟩
    split_ifs with hov
    · have hidiv : width / bs = x / bs :=
        Nat.div_eq_of_lt_le (Nat.le_of_lt hi) (by rw [Nat.succ_mul]; exact hov)
      have hmd := Nat.mod_add_div width bs
      rw [hidiv, Nat.mul_comm bs (x / bs)] at hmd
      omega
    · have h1 := Nat.div_add_mod x bs
      have h2 := Nat.mod_lt x hbs
      rw [Nat.mul_comm bs (x / bs)] at h1
      omega

/-- C9: for positive width, height and blocksize, the windows returned by
`getWindows` stay inside the raster bounds, are nonempty, and partition
the pixel grid: every pixel lies in exactly one window. -/
theorem getWindows_partition (width height bs : Nat)
    (hw : 0 < width) (hh : 0 < height) (hbs : 0 < bs) :
    (∀ w ∈ getWindows width height bs,
        w.hstart + w.hwin ≤ width ∧ w.vstart + w.vwin ≤ height ∧ 0 < w.hwin ∧ 0 < w.vwin) ∧
      ∀ x y, x < width → y < height →
        ∃! w, w ∈ getWindows width height bs ∧ w.contains x y := by
  constructor
  · intro w hmem
    obtain ⟨i, j, hi, hj, rfl⟩ := (mem_getWindows hbs w).mp hmem
    obtain ⟨hi1, hi2⟩ := segment_le hbs hi
    obtain ⟨hj1, hj2⟩ := segment_le hbs hj
    exact ⟨hi1, hj1, hi2, hj2⟩
  · intro x y hx hy
    have hix : (x / bs) * bs < width :=
      Nat.lt_of_le_of_lt (Nat.div_mul_le_self x bs) hx
    have hjy : (y / bs) * bs < height :=
      Nat.lt_of_le_of_lt (Nat.div_mul_le_self y bs) hy
    refine ⟨Window.mk ((x / bs) * bs) ((y / bs) * bs)
        (if width < (x / bs) * bs + bs then width % bs else bs)
        (if height < (y / bs) * bs + bs then height % bs else bs),
      ⟨(mem_getWindows hbs _).mpr ⟨x / bs, y / bs, hix, hjy, rfl⟩, ?_, ?_, ?_, ?_⟩, ?_⟩
    · exact Nat.div_mul_le_self x bs
    · exact ((segment_mem hbs hix hx).mpr rfl).2
    · exact Nat.div_mul_le_self y bs
    · exact ((segment_mem hbs hjy hy).mpr rfl).2
    · rintro w ⟨hmem, hcont⟩
      obtain ⟨i, j, hi, hj, rfl⟩ := (mem_getWindows hbs w).mp hmem
      obtain ⟨c1, c2, c3, c4⟩ := hcont
      have hieq : x / bs = i := (segment_mem hbs hi hx).mp ⟨c1, c2⟩
      have hjeq : y / bs = j := (segment_mem hbs hj hy).mp ⟨c3, c4⟩
      rw [hieq, hjeq]

/-- Witness for C9 on a 5 by 4 raster with blocksize 2 at pixel (3, 3). -/
theorem getWindows_partition_witness :
    ((0 : Nat) < 5 ∧ (0 : Nat) < 4 ∧ (0 : Nat) < 2) ∧
      ((∀ w ∈ getWindows 5 4 2,
          w.hstart + w.hwin ≤ 5 ∧ w.vstart + w.vwin ≤ 4 ∧ 0 < w.hwin ∧ 0 < w.vwin) ∧
        ∀ x y, x < 5 → y < 4 → ∃! w, w ∈ getWindows 5 4 2 ∧ w.contains x y) :=
  ⟨⟨by decide, by decide, by decide⟩,
    getWindows_partition 5 4 2 (by decide) (by decide) (by decide)⟩

end Glam
